import Mathlib

/-!
# Distributed log query: coordinator (`client.go`) and query node (`server.go`)

A shallow embedding of the scatter-gather query protocol.

* Go strings are Lean strings (sequences of Unicode code points); the order `<` on them is
  lexicographic, which on well-formed UTF-8 is Go's bytewise order.
* A Go `error` is modelled by its message: `none` is `nil`.
* A pointer that may be `nil` is an `Option`.
* The network, the file system and the `grep` process are parameters of the model.
* The goroutines of `QueryAllServers` are modelled by the order in which their results
  reach the channel: a list of task indices.
-/

namespace LogQuery

/-! ## Library functions of `strings` and `unicode` -/

/-- The predicate `unicode.IsSpace`: the Unicode `White_Space` property. -/
def isSpace (c : Char) : Bool :=
  let n := c.toNat
  (0x09 ≤ n && n ≤ 0x0D) || n == 0x20 || n == 0x85 || n == 0xA0 || n == 0x1680 ||
    (0x2000 ≤ n && n ≤ 0x200A) || n == 0x2028 || n == 0x2029 || n == 0x202F ||
    n == 0x205F || n == 0x3000

/-- Drop the trailing characters that satisfy `p`. -/
def dropTrailing (p : Char → Bool) (l : List Char) : List Char :=
  (l.reverse.dropWhile p).reverse

/-- The function `strings.TrimSpace` on character lists. -/
def trimSpaceChars (l : List Char) : List Char :=
  dropTrailing isSpace (l.dropWhile isSpace)

/-- The function `strings.TrimSpace`: remove all leading and trailing white space. -/
def TrimSpace (s : String) : String := ⟨trimSpaceChars s.data⟩

/-- The function `strings.TrimRight`: remove all trailing characters contained in `cutset`. -/
def TrimRight (s cutset : String) : String :=
  ⟨dropTrailing (fun c => cutset.data.contains c) s.data⟩

/-- The scan of `strings.Fields`: `cur` is the current field, last character first. -/
def fieldsAux : List Char → List Char → List (List Char)
  | [], cur => if cur.isEmpty then [] else [cur.reverse]
  | c :: cs, cur =>
    if isSpace c then
      if cur.isEmpty then fieldsAux cs [] else cur.reverse :: fieldsAux cs []
    else fieldsAux cs (c :: cur)

/-- The function `strings.Fields`: the maximal runs of non-space characters. -/
def Fields (s : String) : List String := (fieldsAux s.data []).map String.mk

/-- The scan of `strings.Split` for a non-empty separator: `skip` counts the characters of a
matched separator still to pass, `cur` is the current piece, last character first. -/
def splitAux (sep : List Char) : List Char → Nat → List Char → List (List Char)
  | [], _, cur => [cur.reverse]
  | _ :: cs, skip + 1, cur => splitAux sep cs skip cur
  | c :: cs, 0, cur =>
    if sep.isPrefixOf (c :: cs) then cur.reverse :: splitAux sep cs (sep.length - 1) []
    else splitAux sep cs 0 (c :: cur)

/-- The function `strings.Split`: the pieces of `s` between the occurrences of `sep`; with an
empty separator, the characters of `s`. -/
def Split (s sep : String) : List String :=
  if sep.data.isEmpty then s.data.map (fun c => String.mk [c])
  else (splitAux sep.data s.data 0 []).map String.mk

/-! ## Messages (`logquery` package) -/

/-- Modelled from the spec: the generated message type `pb.QueryRequest` of the `logquery`
package (section 6 of the spec), with the field names the source uses. -/
structure QueryRequest where
  Pattern : String := ""
  Options : String := ""
  MachineId : String := ""
deriving DecidableEq

/-- Modelled from the spec: the generated message type `pb.QueryResponse` of the `logquery`
package (section 6 of the spec), with the field names the source uses; `LineCount` is an
`int32`. -/
structure QueryResponse where
  MachineId : String := ""
  Success : Bool := false
  Error : String := ""
  Filename : String := ""
  LineCount : Int := 0
  Lines : List String := []
deriving DecidableEq

/-! ## Coordinator (`client.go`) -/

/-- A server configuration. -/
structure ServerConfig where
  MachineID : String
  Address : String
deriving DecidableEq

/-- The result from a single server; the zero value is the default. -/
structure QueryResult where
  MachineID : String := ""
  Response : Option QueryResponse := none
  Error : Option String := none
deriving DecidableEq

/-- The client: its roster and the per-node timeout (nanoseconds). -/
structure LogQueryClient where
  servers : List ServerConfig
  timeout : Nat

/-- Constructor of the client. -/
def NewLogQueryClient (servers : List ServerConfig) (timeout : Nat) : LogQueryClient :=
  { servers := servers, timeout := timeout }

/-- The network as one task sees it: `dial` is the error of `grpc.Dial` at an address, if any;
`queryLogs` is the pair (response, error) the RPC stub returns under the given deadline. -/
structure Network where
  dial : String → Option String
  queryLogs : Nat → String → QueryRequest → Option QueryResponse × Option String

/-- What a task does on the network. -/
inductive NetEvent where
  | dial (address : String)
  | rpc (address : String) (req : QueryRequest)
deriving DecidableEq

/-- The request `queryServer` builds for `server`. -/
def requestFor (server : ServerConfig) (pattern options : String) : QueryRequest :=
  { Pattern := pattern, Options := options, MachineId := server.MachineID }

/-- Method `queryServer`: query a single server. Returns the result and the network events. -/
def queryServer (c : LogQueryClient) (net : Network) (server : ServerConfig)
    (pattern options : String) : QueryResult × List NetEvent :=
  match net.dial server.Address with
  | some err =>
    ({ Error := some ("failed to connect to " ++ server.Address ++ ": " ++ err) },
      [NetEvent.dial server.Address])
  | none =>
    let req := requestFor server pattern options
    match net.queryLogs c.timeout server.Address req with
    | (_, some err) =>
      ({ Error := some ("query failed on " ++ server.Address ++ ": " ++ err) },
        [NetEvent.dial server.Address, NetEvent.rpc server.Address req])
    | (response, none) =>
      ({ Response := response },
        [NetEvent.dial server.Address, NetEvent.rpc server.Address req])

/-- The body of the goroutine started for `srv`: the result it sends to the channel. -/
def taskResult (c : LogQueryClient) (net : Network) (srv : ServerConfig)
    (pattern options : String) : QueryResult :=
  { (queryServer c net srv pattern options).1 with MachineID := srv.MachineID }

/-- The results of the tasks from index `i` on; task `j` sees the network `nets j`. -/
def taskResultsFrom (c : LogQueryClient) (pattern options : String) (nets : Nat → Network) :
    List ServerConfig → Nat → List QueryResult
  | [], _ => []
  | srv :: rest, i =>
    taskResult c (nets i) srv pattern options :: taskResultsFrom c pattern options nets rest (i + 1)

/-- The result of every task, by task index. -/
def taskResults (c : LogQueryClient) (pattern options : String) (nets : Nat → Network) :
    List QueryResult :=
  taskResultsFrom c pattern options nets c.servers 0

/-- The inner loop of the collection: scan the roster from index `i` for the first server
with the result's machine ID, store the result at that index and stop. -/
def place (result : QueryResult) : List ServerConfig → Nat → List QueryResult → List QueryResult
  | [], _, results => results
  | server :: rest, i, results =>
    if server.MachineID = result.MachineID then results.set i result
    else place result rest (i + 1) results

/-- The collection loop `for result := range resultChan`. -/
def collect (servers : List ServerConfig) (resultChan : List QueryResult)
    (results : List QueryResult) : List QueryResult :=
  resultChan.foldl (fun rs result => place result servers 0 rs) results

/-- Method `QueryAllServers`: `order` lists the task indices in the order in which the tasks
deliver their results to the channel. -/
def QueryAllServers (c : LogQueryClient) (pattern options : String) (nets : Nat → Network)
    (order : List Nat) : List QueryResult :=
  let results := List.replicate c.servers.length ({} : QueryResult)
  let resultChan := order.filterMap (fun i => (taskResults c pattern options nets)[i]?)
  collect c.servers resultChan results

/-- The network events of every task of `QueryAllServers`, by task index. -/
def dispatchEvents (c : LogQueryClient) (pattern options : String) (nets : Nat → Network) :
    List ServerConfig → Nat → List NetEvent
  | [], _ => []
  | srv :: rest, i =>
    (queryServer c (nets i) srv pattern options).2 ++
      dispatchEvents c pattern options nets rest (i + 1)

/-- The comparison `less` handed to `sort.Slice`: `<` on the machine IDs, the lexicographic
order of the strings. -/
def lessByMachineID (a b : QueryResult) : Bool := decide (a.MachineID.data < b.MachineID.data)

/-- The inner loop of the library's insertion sort: `x` moves left past every element it is
less than. The sorted part is held nearest element first. -/
def sink (less : QueryResult → QueryResult → Bool) (x : QueryResult) :
    List QueryResult → List QueryResult
  | [] => [x]
  | y :: ys => if less x y then y :: sink less x ys else x :: y :: ys

/-- The function `sort.Slice`, modelled by the insertion sort the library runs on short
slices (`insertionSortLessFunc`): every element in turn sinks into the sorted part. -/
def sortSlice (less : QueryResult → QueryResult → Bool) (data : List QueryResult) :
    List QueryResult :=
  (data.foldl (fun sorted x => sink less x sorted) []).reverse

/-- A line group written by `PrintResults`. -/
inductive Printed where
  | header (pattern : String) (queried : Nat)
  | transportError (machineID err : String)
  | queryFailed (machineID err : String)
  | noMatches (machineID filename : String)
  | found (machineID : String) (lineCount : Int) (filename : String) (lines : List String)
  | summary (totalLines : Int) (successfulServers : Int) (total : Nat) (failed : Int)
deriving DecidableEq

/-- The conversion to Go `int` (64 bits, two's complement). -/
def toInt64 (n : Int) : Int := (n + 2 ^ 63) % 2 ^ 64 - 2 ^ 63

/-- The state of the loop of `PrintResults`: the entries reported so far with what was
printed for each, and the two counters. -/
structure PrintState where
  reports : List (QueryResult × Printed) := []
  totalLines : Int := 0
  successfulServers : Int := 0

/-- One iteration of the loop of `PrintResults`; `none` is the run-time panic of reading
`Success` through a nil `Response`. -/
def printStep (st : PrintState) (result : QueryResult) : Option PrintState :=
  match result.Error with
  | some err =>
    some { st with reports := st.reports ++ [(result, Printed.transportError result.MachineID err)] }
  | none =>
    match result.Response with
    | none => none
    | some response =>
      if !response.Success then
        some { st with
          reports := st.reports ++ [(result, Printed.queryFailed result.MachineID response.Error)] }
      else
        let lineCount := response.LineCount
        some
          { reports := st.reports ++
              [(result,
                if lineCount = 0 then Printed.noMatches result.MachineID response.Filename
                else Printed.found result.MachineID lineCount response.Filename response.Lines)]
            totalLines := toInt64 (st.totalLines + lineCount)
            successfulServers := toInt64 (st.successfulServers + 1) }

/-- The loop of `PrintResults` over the sorted slice: the state it reaches, and whether it
ran to the end (`false`: it panicked at some entry). -/
def printLoop : List QueryResult → PrintState → PrintState × Bool
  | [], st => (st, true)
  | result :: rest, st =>
    match printStep st result with
    | none => (st, false)
    | some st1 => printLoop rest st1

/-- What `PrintResults` does: the slice as the sort leaves it, the header, the entries reported
in order, and the summary when the loop ran to the end. -/
structure PrintOutcome where
  sorted : List QueryResult
  header : Printed
  reports : List (QueryResult × Printed)
  summary : Option Printed
deriving DecidableEq

/-- Method `PrintResults`: format and print the query results. -/
def PrintResults (results : List QueryResult) (pattern : String) : PrintOutcome :=
  let sorted := sortSlice lessByMachineID results
  let (st, finished) := printLoop sorted {}
  { sorted := sorted
    header := Printed.header pattern results.length
    reports := st.reports
    summary :=
      if finished then
        some (Printed.summary st.totalLines st.successfulServers results.length
          (toInt64 ((results.length : Int) - st.successfulServers)))
      else none }

/-- The command-line flags of the coordinator. -/
structure Flags where
  pattern : String := ""
  options : String := ""
  servers : String := "localhost:8080,localhost:8081,localhost:8082"
  timeout : Nat := 10000000000

/-- The roster `main` derives from the `servers` flag: the machine ID is the port segment. -/
def parseServers (servers : String) : List ServerConfig :=
  (Split servers ",").map fun addr =>
    let addr := TrimSpace addr
    let parts := Split addr ":"
    let machineID := match parts with
      | _ :: port :: _ => port
      | _ => "1"
    { MachineID := machineID, Address := addr }

/-- What a run of the coordinator does: whether it stopped in `log.Fatal`, the network events
of its tasks (by task index), the results and what it printed. -/
structure MainOutcome where
  fatal : Option String
  events : List NetEvent
  results : List QueryResult
  printed : Option PrintOutcome

/-- The coordinator's `main`. -/
def clientMain (flags : Flags) (nets : Nat → Network) (order : List Nat) : MainOutcome :=
  if flags.pattern = "" then
    { fatal := some "Pattern is required. Use -pattern flag.", events := [], results := [],
      printed := none }
  else
    let serverConfigs := parseServers flags.servers
    let client := NewLogQueryClient serverConfigs flags.timeout
    let results := QueryAllServers client flags.pattern flags.options nets order
    { fatal := none
      events := dispatchEvents client flags.pattern flags.options nets client.servers 0
      results := results
      printed := some (PrintResults results flags.pattern) }

/-! ## Query node (`server.go`) -/

/-- The server: its machine ID and its log file. -/
structure LogQueryServer where
  machineID : String
  logFile : String

/-- Constructor of the server. -/
def NewLogQueryServer (machineID : String) : LogQueryServer :=
  { machineID := machineID, logFile := "machine." ++ machineID ++ ".log" }

/-- The error of `cmd.Output`: `exitCode` is `ExitCode()` when the error is an
`*exec.ExitError` (the process ran and did not exit with 0; `-1` when it was killed, as on
the deadline), `none` for any other error; `text` is its message. -/
structure CmdError where
  exitCode : Option Int
  text : String
deriving DecidableEq

/-- The machine the node runs on: `statNotExist path` is `os.IsNotExist` of the error of
`os.Stat path`; `grep args` is the pair (output, error) that `cmd.Output` returns for
`grep args...` under the 30 second deadline. -/
structure Host where
  statNotExist : String → Bool
  grep : List String → String × Option CmdError

/-- The conversion `int32(n)`. -/
def toInt32 (n : Int) : Int := (n + 2 ^ 31) % 2 ^ 32 - 2 ^ 31

/-- The argument vector `executeGrep` builds. -/
def grepArgs (s : LogQueryServer) (pattern options : String) : List String :=
  let args : List String := []
  let args := if options ≠ "" then args ++ Fields options else args
  args ++ ["-e", pattern, "--", s.logFile]

/-- What `executeGrep` returns: the lines, their number, the error. -/
structure GrepReturn where
  lines : List String
  lineCount : Int
  err : Option CmdError
deriving DecidableEq

/-- Method `executeGrep`: run the grep command and return the matching lines. -/
def executeGrep (s : LogQueryServer) (host : Host) (pattern options : String) : GrepReturn :=
  let args := grepArgs s pattern options
  match host.grep args with
  | (_, some err) =>
    if err.exitCode = some 1 then { lines := [], lineCount := 0, err := none }
    else { lines := [], lineCount := 0, err := some err }
  | (outputStr, none) =>
    if outputStr = "" then { lines := [], lineCount := 0, err := none }
    else
      let lines := Split (TrimRight outputStr "\n") "\n"
      { lines := lines, lineCount := lines.length, err := none }

/-- Function `sanitizePattern`: trim white space only. -/
def sanitizePattern (pattern : String) : String :=
  if pattern = "" then "" else TrimSpace pattern

/-- What `QueryLogs` returns (response and error), and the argument vectors of the grep
processes it started. -/
structure QueryLogsReturn where
  response : Option QueryResponse
  err : Option String
  engineCalls : List (List String)
deriving DecidableEq

/-- Method `QueryLogs` of the server. -/
def QueryLogs (s : LogQueryServer) (host : Host) (req : QueryRequest) : QueryLogsReturn :=
  if host.statNotExist s.logFile then
    { response := some
        { MachineId := s.machineID, Filename := s.logFile,
          Error := "Log file '" ++ s.logFile ++ "' not found", Success := false }
      err := none, engineCalls := [] }
  else
    let sanitizedPattern := sanitizePattern req.Pattern
    if sanitizedPattern = "" then
      { response := some
          { MachineId := s.machineID, Filename := s.logFile,
            Error := "Invalid or empty pattern", Success := false }
        err := none, engineCalls := [] }
    else
      let r := executeGrep s host sanitizedPattern req.Options
      match r.err with
      | some err =>
        { response := some
            { MachineId := s.machineID, Filename := s.logFile,
              Error := "Grep execution failed: " ++ err.text, Success := false }
          err := none, engineCalls := [grepArgs s sanitizedPattern req.Options] }
      | none =>
        { response := some
            { MachineId := s.machineID, LineCount := toInt32 r.lineCount, Filename := s.logFile,
              Lines := r.lines, Success := true }
          err := none, engineCalls := [grepArgs s sanitizedPattern req.Options] }

/-- The collection loop, read over the task indices of the delivery order. -/
def collectIdx (servers : List ServerConfig) (tasks : List QueryResult) (order : List Nat)
    (results : List QueryResult) : List QueryResult :=
  order.foldl (fun rs i => match tasks[i]? with
    | some r => place r servers 0 rs
    | none => rs) results

/-- A character list `r` is `l` with only surrounding white space removed: `l` is `r` between
two runs of white space, and `r` neither starts nor ends with white space. -/
def IsTrimOf (l r : List Char) : Prop :=
  ∃ pre suf : List Char, l = pre ++ r ++ suf ∧
    (∀ ch ∈ pre, isSpace ch = true) ∧ (∀ ch ∈ suf, isSpace ch = true) ∧
    (∀ ch, r.head? = some ch → isSpace ch = false) ∧
    (∀ ch, r.getLast? = some ch → isSpace ch = false)

/-- The engine reports "no matches" for the argument vector `args`: the process exits with
code 1, or it exits with 0 and prints nothing. -/
def NoMatches (host : Host) (args : List String) : Prop :=
  (∃ e, (host.grep args).2 = some e ∧ e.exitCode = some 1) ∨ host.grep args = ("", none)

/-- The scan of `printedLines`: `cur` is the current line, last character first. -/
def printedLinesAux : List Char → List Char → List (List Char)
  | [], _ => []
  | ch :: rest, cur =>
    if ch = '\n' then cur.reverse :: printedLinesAux rest [] else printedLinesAux rest (ch :: cur)

/-- Following the words of the specification: the newline-terminated lines of an engine
output, in order, empty lines included. -/
def printedLines (output : String) : List String :=
  (printedLinesAux output.data []).map String.mk

/-- A roster of two nodes with distinct machine IDs. -/
def exampleClient : LogQueryClient :=
  NewLogQueryClient
    [{ MachineID := "8080", Address := "localhost:8080" },
     { MachineID := "8081", Address := "localhost:8081" }] 10000000000

/-- A network on which every connection succeeds and every RPC fails. -/
def exampleNets : Nat → Network := fun _ =>
  { dial := fun _ => none
    queryLogs := fun _ _ _ => (none, some "rpc error: code = Unavailable") }

/-- A host whose log files exist and whose grep exits with code 1. -/
def exampleHostNoMatch : Host :=
  { statNotExist := fun _ => false
    grep := fun _ => ("", some { exitCode := some 1, text := "exit status 1" }) }

/-- A host whose log files exist and whose grep prints the line `a` and an empty line. -/
def exampleHostEmptyLine : Host :=
  { statNotExist := fun _ => false
    grep := fun _ => ("a\n\n", none) }

/-- The query of task `net` at `server` faults with the cause `cause`: the connection attempt
fails, or it succeeds and the RPC returns an error (a deadline expiry included). -/
def Faults (c : LogQueryClient) (net : Network) (server : ServerConfig)
    (pattern options cause : String) : Prop :=
  net.dial server.Address = some cause ∨
    (net.dial server.Address = none ∧
      (net.queryLogs c.timeout server.Address (requestFor server pattern options)).2 =
        some cause)

/-- A host on which no log file exists. -/
def exampleHostNoFile : Host :=
  { statNotExist := fun _ => true
    grep := fun _ => ("", some { exitCode := some 2, text := "exit status 2" }) }

/-- A host whose log files exist and whose grep prints the lines `x`, an empty line and `y`. -/
def exampleHostThreeLines : Host :=
  { statNotExist := fun _ => false
    grep := fun _ => ("x\n\ny\n", none) }

/-- An entry counts as successful: no transport error and a response with `Success` true. -/
def isSuccessful (r : QueryResult) : Bool :=
  match r.Error, r.Response with
  | none, some response => response.Success
  | _, _ => false

/-- The number of successful entries. -/
def successfulCount (results : List QueryResult) : Nat := results.countP isSuccessful

/-- The line count an entry carries (0 without a response). -/
def lineCountOf (r : QueryResult) : Int :=
  match r.Response with
  | some response => response.LineCount
  | none => 0

/-- The sum of the line counts over the successful entries. -/
def totalLinesOf (results : List QueryResult) : Int :=
  ((results.filter isSuccessful).map lineCountOf).sum

/-- Three successful entries with line counts 5, 4 and 3. -/
def exampleResults : List QueryResult :=
  [{ MachineID := "8080",
     Response := some { MachineId := "1", Success := true, Filename := "machine.1.log",
                        LineCount := 5, Lines := ["a", "b", "c", "d", "e"] } },
   { MachineID := "8081",
     Response := some { MachineId := "2", Success := true, Filename := "machine.2.log",
                        LineCount := 4, Lines := ["a", "b", "c", "d"] } },
   { MachineID := "8082",
     Response := some { MachineId := "3", Success := true, Filename := "machine.3.log",
                        LineCount := 3, Lines := ["a", "b", "c"] } }]

/-- The roster the coordinator derives from `-servers hostA:8080,hostB:8080`: two nodes with the
machine ID `8080`. -/
def exampleSharedClient : LogQueryClient :=
  NewLogQueryClient (parseServers "hostA:8080,hostB:8080") 10000000000

/-! ## Collection of the results -/

theorem place_length (result : QueryResult) (servers : List ServerConfig) (i : Nat)
    (results : List QueryResult) : (place result servers i results).length = results.length := by
  induction servers generalizing i with
  | nil => rfl
  | cons server rest ih =>
    unfold place
    split
    · simp
    · exact ih (i + 1)

theorem collect_length (servers : List ServerConfig) (resultChan results : List QueryResult) :
    (collect servers resultChan results).length = results.length := by
  induction resultChan generalizing results with
  | nil => rfl
  | cons r rest ih =>
    show (collect servers rest (place r servers 0 results)).length = results.length
    rw [ih, place_length]

theorem taskResultsFrom_length (c : LogQueryClient) (pattern options : String)
    (nets : Nat → Network) (l : List ServerConfig) (k : Nat) :
    (taskResultsFrom c pattern options nets l k).length = l.length := by
  induction l generalizing k with
  | nil => rfl
  | cons srv rest ih => simp [taskResultsFrom, ih]

theorem taskResultsFrom_getElem? (c : LogQueryClient) (pattern options : String)
    (nets : Nat → Network) (l : List ServerConfig) (k i : Nat) :
    (taskResultsFrom c pattern options nets l k)[i]? =
      l[i]?.map (fun srv => taskResult c (nets (k + i)) srv pattern options) := by
  induction l generalizing k i with
  | nil => simp [taskResultsFrom]
  | cons srv rest ih =>
    cases i with
    | zero => simp [taskResultsFrom]
    | succ j =>
      simp only [taskResultsFrom, List.getElem?_cons_succ, ih]
      have : k + 1 + j = k + (j + 1) := by omega
      rw [this]

theorem taskResults_getElem? (c : LogQueryClient) (pattern options : String)
    (nets : Nat → Network) (i : Nat) :
    (taskResults c pattern options nets)[i]? =
      c.servers[i]?.map (fun srv => taskResult c (nets i) srv pattern options) := by
  simp [taskResults, taskResultsFrom_getElem?]

theorem taskResult_MachineID (c : LogQueryClient) (net : Network) (srv : ServerConfig)
    (pattern options : String) :
    (taskResult c net srv pattern options).MachineID = srv.MachineID := rfl

/-- With pairwise distinct machine IDs the scan of `place` stops at the server's own index. -/
theorem place_eq_set (result : QueryResult) (servers : List ServerConfig) (k i : Nat)
    (results : List QueryResult) (srv : ServerConfig)
    (hid : (servers.map (fun s => s.MachineID)).Nodup) (hi : servers[i]? = some srv)
    (hr : srv.MachineID = result.MachineID) :
    place result servers k results = results.set (k + i) result := by
  induction servers generalizing k i with
  | nil => simp at hi
  | cons server rest ih =>
    cases i with
    | zero =>
      simp only [List.getElem?_cons_zero, Option.some.injEq] at hi
      subst hi
      simp [place, hr]
    | succ j =>
      simp only [List.getElem?_cons_succ] at hi
      simp only [List.map_cons, List.nodup_cons] at hid
      have hne : server.MachineID ≠ result.MachineID := by
        intro h
        apply hid.1
        rw [h, ← hr]
        exact List.mem_map_of_mem _ (List.mem_iff_getElem?.2 ⟨j, hi⟩)
      simp only [place, hne, if_false]
      rw [ih (k + 1) j hid.2 hi]
      congr 1
      omega

theorem collect_filterMap (servers : List ServerConfig) (tasks : List QueryResult)
    (order : List Nat) (results : List QueryResult) :
    collect servers (order.filterMap (fun i => tasks[i]?)) results =
      collectIdx servers tasks order results := by
  induction order generalizing results with
  | nil => rfl
  | cons i rest ih =>
    cases h : tasks[i]? with
    | none =>
      simp only [List.filterMap_cons, h, collectIdx, List.foldl_cons]
      exact ih results
    | some r =>
      simp only [List.filterMap_cons, h, collectIdx, List.foldl_cons]
      exact ih (place r servers 0 results)

/-- With pairwise distinct machine IDs, after the collection loop slot `j` holds the result of
task `j` if the task has delivered, and is untouched otherwise. -/
theorem collectIdx_getElem? (c : LogQueryClient) (pattern options : String)
    (nets : Nat → Network) (hid : (c.servers.map (fun s => s.MachineID)).Nodup)
    (order : List Nat) (results : List QueryResult) (hlen : results.length = c.servers.length)
    (j : Nat) :
    (collectIdx c.servers (taskResults c pattern options nets) order results)[j]? =
      if j ∈ order ∧ j < c.servers.length then (taskResults c pattern options nets)[j]?
      else results[j]? := by
  induction order generalizing results with
  | nil => simp [collectIdx]
  | cons i rest ih =>
    simp only [collectIdx, List.foldl_cons]
    cases h : (taskResults c pattern options nets)[i]? with
    | none =>
      have hi : ¬ i < c.servers.length := by
        intro hlt
        rw [taskResults_getElem?, List.getElem?_eq_getElem hlt] at h
        simp at h
      have := ih results hlen
      simp only [collectIdx] at this
      simp only [this, List.mem_cons]
      by_cases hj : j < c.servers.length
      · have hne : j ≠ i := by intro e; subst e; exact hi hj
        simp [hne, hj]
      · simp [hj]
    | some r =>
      have hsrv : ∃ srv, c.servers[i]? = some srv ∧
          r = taskResult c (nets i) srv pattern options := by
        rw [taskResults_getElem?] at h
        cases hs : c.servers[i]? with
        | none => simp [hs] at h
        | some srv => exact ⟨srv, rfl, by simpa [hs] using h.symm⟩
      obtain ⟨srv, hs, hr⟩ := hsrv
      have hplace : place r c.servers 0 results = results.set i r := by
        rw [place_eq_set r c.servers 0 i results srv hid hs (by rw [hr]; rfl)]
        simp
      have hlen2 : (place r c.servers 0 results).length = c.servers.length := by
        rw [place_length, hlen]
      have := ih (place r c.servers 0 results) hlen2
      simp only [collectIdx] at this
      rw [hplace] at this
      simp only [hplace, this, List.mem_cons]
      by_cases hj : j < c.servers.length
      · by_cases hm : j ∈ rest
        · simp [hm, hj]
        · by_cases hji : j = i
          · subst hji
            simp [hj, h, hlen]
          · have hij : i ≠ j := fun e => hji e.symm
            simp [hm, hji, hj, List.getElem?_set_ne hij]
      · by_cases hji : j = i
        · subst hji
          rw [List.getElem?_eq_none (Nat.le_of_not_lt hj)] at hs
          cases hs
        · have hij : i ≠ j := fun e => hji e.symm
          simp [hj, List.getElem?_set_ne hij]

/-- With pairwise distinct machine IDs and every task delivering once, the collection yields
the task results by index. -/
theorem QueryAllServers_eq_taskResults (c : LogQueryClient) (pattern options : String)
    (nets : Nat → Network) (order : List Nat)
    (hid : (c.servers.map (fun s => s.MachineID)).Nodup)
    (hord : order.Perm (List.range c.servers.length)) :
    QueryAllServers c pattern options nets order = taskResults c pattern options nets := by
  apply List.ext_getElem?
  intro j
  simp only [QueryAllServers]
  rw [collect_filterMap, collectIdx_getElem? c pattern options nets hid order _ (by simp) j]
  by_cases hj : j < c.servers.length
  · have : j ∈ order := (hord.mem_iff).2 (List.mem_range.2 hj)
    simp [this, hj]
  · have h1 : (taskResults c pattern options nets)[j]? = none := by
      apply List.getElem?_eq_none
      simp only [taskResults, taskResultsFrom_length]
      omega
    simp only [hj, and_false, if_false, h1]
    apply List.getElem?_eq_none
    simp only [List.length_replicate]
    omega

/-! ## Trimming -/

theorem dropTrailing_append (p : Char → Bool) (l : List Char) :
    dropTrailing p l ++ (l.reverse.takeWhile p).reverse = l := by
  have h := List.takeWhile_append_dropWhile p l.reverse
  have h2 := congrArg List.reverse h
  rw [List.reverse_append, List.reverse_reverse] at h2
  exact h2

theorem dropTrailing_getLast? (p : Char → Bool) (l : List Char) (ch : Char)
    (h : (dropTrailing p l).getLast? = some ch) : p ch = false := by
  have h1 := List.head?_dropWhile_not p l.reverse
  simp only [dropTrailing, List.getLast?_reverse] at h
  rw [h] at h1
  exact h1

theorem dropTrailing_head? (p : Char → Bool) (l : List Char) (ch : Char)
    (h : (dropTrailing p l).head? = some ch) : l.head? = some ch := by
  have hne : dropTrailing p l ≠ [] := by
    intro e
    rw [e] at h
    cases h
  have := @List.head?_append_of_ne_nil Char (dropTrailing p l)
    ((l.reverse.takeWhile p).reverse) hne
  rw [dropTrailing_append] at this
  rw [this, h]

theorem trimSpaceChars_spec (l : List Char) : IsTrimOf l (trimSpaceChars l) := by
  refine ⟨l.takeWhile isSpace, ((l.dropWhile isSpace).reverse.takeWhile isSpace).reverse,
    ?_, ?_, ?_, ?_, ?_⟩
  · rw [List.append_assoc, trimSpaceChars, dropTrailing_append,
      List.takeWhile_append_dropWhile]
  · intro ch h
    exact List.mem_takeWhile_imp h
  · intro ch h
    exact List.mem_takeWhile_imp (List.mem_reverse.1 h)
  · intro ch h
    have h1 := dropTrailing_head? isSpace _ ch h
    have h2 := List.head?_dropWhile_not isSpace l
    rw [h1] at h2
    exact h2
  · intro ch h
    exact dropTrailing_getLast? isSpace _ ch h

theorem sanitizePattern_eq (pattern : String) : sanitizePattern pattern = TrimSpace pattern := by
  unfold sanitizePattern
  split
  · next h => subst h; rfl
  · rfl

theorem grepArgs_eq (s : LogQueryServer) (pattern options : String) :
    grepArgs s pattern options = Fields options ++ ["-e", pattern, "--", s.logFile] := by
  unfold grepArgs
  by_cases h : options = ""
  · subst h
    rfl
  · simp [h]

theorem append_ne_empty (a b : String) (h : a ≠ "") : a ++ b ≠ "" := by
  intro e
  apply h
  have := congrArg String.data e
  simp only [String.data_append] at this
  apply String.ext
  exact (List.append_eq_nil.1 this).1

/-- The response of `QueryLogs` in each of its four branches. -/
theorem QueryLogs_response (s : LogQueryServer) (host : Host) (req : QueryRequest) :
    (QueryLogs s host req).err = none ∧
    ((QueryLogs s host req).response = some
        { MachineId := s.machineID, Filename := s.logFile,
          Error := "Log file '" ++ s.logFile ++ "' not found", Success := false } ∨
     (QueryLogs s host req).response = some
        { MachineId := s.machineID, Filename := s.logFile,
          Error := "Invalid or empty pattern", Success := false } ∨
     (∃ err : CmdError, (QueryLogs s host req).response = some
        { MachineId := s.machineID, Filename := s.logFile,
          Error := "Grep execution failed: " ++ err.text, Success := false }) ∨
     (∃ (n : Int) (lines : List String), (QueryLogs s host req).response = some
        { MachineId := s.machineID, LineCount := n, Filename := s.logFile,
          Lines := lines, Success := true })) := by
  unfold QueryLogs
  split
  · exact ⟨rfl, Or.inl rfl⟩
  · simp only
    split
    · exact ⟨rfl, Or.inr (Or.inl rfl)⟩
    · split
      · next err _ => exact ⟨rfl, Or.inr (Or.inr (Or.inl ⟨err, rfl⟩))⟩
      · exact ⟨rfl, Or.inr (Or.inr (Or.inr ⟨_, _, rfl⟩))⟩

/-! ## Sorting and printing -/

theorem sink_perm (less : QueryResult → QueryResult → Bool) (x : QueryResult)
    (l : List QueryResult) : (sink less x l).Perm (x :: l) := by
  induction l with
  | nil => exact List.Perm.refl _
  | cons y ys ih =>
    unfold sink
    split
    · exact (List.Perm.cons y ih).trans (List.Perm.swap x y ys)
    · exact List.Perm.refl _

theorem sortSlice_fold_perm (less : QueryResult → QueryResult → Bool)
    (data acc : List QueryResult) :
    (data.foldl (fun sorted x => sink less x sorted) acc).Perm (data ++ acc) := by
  induction data generalizing acc with
  | nil => exact List.Perm.refl _
  | cons x xs ih =>
    simp only [List.foldl_cons, List.cons_append]
    refine (ih (sink less x acc)).trans ?_
    refine (List.Perm.append_left xs (sink_perm less x acc)).trans ?_
    exact List.perm_middle

theorem sortSlice_perm (less : QueryResult → QueryResult → Bool) (data : List QueryResult) :
    (sortSlice less data).Perm data := by
  unfold sortSlice
  refine (List.reverse_perm _).trans ?_
  simpa using sortSlice_fold_perm less data []

theorem lessByMachineID_false_iff (a b : QueryResult) :
    lessByMachineID a b = false ↔ b.MachineID ≤ a.MachineID := by
  unfold lessByMachineID
  rw [decide_eq_false_iff_not, ← not_lt, String.lt_iff_toList_lt]
  rfl

theorem sink_desc (x : QueryResult) (l : List QueryResult)
    (h : l.Pairwise (fun a b => lessByMachineID a b = false)) :
    (sink lessByMachineID x l).Pairwise (fun a b => lessByMachineID a b = false) := by
  induction l with
  | nil => simp [sink]
  | cons y ys ih =>
    rw [List.pairwise_cons] at h
    unfold sink
    split
    · next hlt =>
      rw [List.pairwise_cons]
      refine ⟨?_, ih h.2⟩
      intro z hz
      rcases List.mem_cons.1 ((sink_perm lessByMachineID x ys).mem_iff.1 hz) with hzx | hzy
      · subst hzx
        rw [lessByMachineID_false_iff]
        have : ¬ (lessByMachineID z y = false) := by simp [hlt]
        rw [lessByMachineID_false_iff, not_le] at this
        exact le_of_lt this
      · exact h.1 z hzy
    · next hge =>
      have hxy : lessByMachineID x y = false := by simpa using hge
      rw [List.pairwise_cons]
      refine ⟨?_, List.pairwise_cons.2 h⟩
      intro z hz
      rcases List.mem_cons.1 hz with hzy | hzys
      · subst hzy
        exact hxy
      · have h1 := h.1 z hzys
        rw [lessByMachineID_false_iff] at h1 hxy ⊢
        exact le_trans h1 hxy

theorem sortSlice_fold_desc (data acc : List QueryResult)
    (h : acc.Pairwise (fun a b => lessByMachineID a b = false)) :
    (data.foldl (fun sorted x => sink lessByMachineID x sorted) acc).Pairwise
      (fun a b => lessByMachineID a b = false) := by
  induction data generalizing acc with
  | nil => exact h
  | cons x xs ih => exact ih _ (sink_desc x acc h)

theorem sortSlice_sorted (data : List QueryResult) :
    (sortSlice lessByMachineID data).Pairwise (fun a b => a.MachineID ≤ b.MachineID) := by
  unfold sortSlice
  rw [List.pairwise_reverse]
  have := sortSlice_fold_desc data [] List.Pairwise.nil
  refine this.imp ?_
  intro a b hab
  exact (lessByMachineID_false_iff a b).1 hab

theorem printStep_reports (st st1 : PrintState) (r : QueryResult)
    (h : printStep st r = some st1) :
    st1.reports.map Prod.fst = st.reports.map Prod.fst ++ [r] := by
  unfold printStep at h
  split at h
  · cases h
    simp
  · split at h
    · cases h
    · split at h
      · cases h
        simp
      · cases h
        simp

theorem printStep_isSome (st : PrintState) (r : QueryResult)
    (h : r.Error ≠ none ∨ r.Response ≠ none) : ∃ st1, printStep st r = some st1 := by
  unfold printStep
  split
  · exact ⟨_, rfl⟩
  · next he =>
    split
    · next hr =>
      rcases h with h | h
      · exact absurd he h
      · exact absurd hr h
    · split
      · exact ⟨_, rfl⟩
      · exact ⟨_, rfl⟩

theorem printLoop_reports (l : List QueryResult) (st : PrintState) :
    ∃ reported : List QueryResult,
      (printLoop l st).1.reports.map Prod.fst = st.reports.map Prod.fst ++ reported ∧
      reported <+: l ∧
      ((∀ r ∈ l, r.Error ≠ none ∨ r.Response ≠ none) →
        reported = l ∧ (printLoop l st).2 = true) := by
  induction l generalizing st with
  | nil => exact ⟨[], by simp [printLoop], List.prefix_refl _, fun _ => ⟨rfl, rfl⟩⟩
  | cons r rest ih =>
    cases hstep : printStep st r with
    | none =>
      refine ⟨[], by simp [printLoop, hstep], List.nil_prefix, ?_⟩
      intro hall
      obtain ⟨st1, h1⟩ := printStep_isSome st r (hall r (List.mem_cons_self _ _))
      rw [h1] at hstep
      cases hstep
    | some st1 =>
      obtain ⟨reported, h1, h2, h3⟩ := ih st1
      refine ⟨r :: reported, ?_, ?_, ?_⟩
      · simp only [printLoop, hstep, h1, printStep_reports st st1 r hstep]
        simp
      · exact List.prefix_cons_inj r |>.2 h2
      · intro hall
        have := h3 (fun x hx => hall x (List.mem_cons_of_mem _ hx))
        simp only [printLoop, hstep]
        exact ⟨by rw [this.1], this.2⟩

/-! ## Faults and dispatch -/

theorem infix_of_append (a b c : String) : b.data <:+: (a ++ b ++ c).data := by
  refine ⟨a.data, c.data, ?_⟩
  simp [String.data_append]

theorem queryServer_fault (c : LogQueryClient) (net : Network) (server : ServerConfig)
    (pattern options cause : String) (h : Faults c net server pattern options cause) :
    ∃ msg : String, server.Address.data <:+: msg.data ∧
      (queryServer c net server pattern options).1 =
        { MachineID := "", Response := none, Error := some msg } := by
  rcases h with h | ⟨h1, h2⟩
  · refine ⟨"failed to connect to " ++ server.Address ++ ": " ++ cause, ?_, ?_⟩
    · rw [String.append_assoc]
      exact infix_of_append _ _ _
    · simp [queryServer, h]
  · refine ⟨"query failed on " ++ server.Address ++ ": " ++ cause, ?_, ?_⟩
    · rw [String.append_assoc]
      exact infix_of_append _ _ _
    · unfold queryServer
      simp only [h1]
      split
      · next x err heq =>
        rw [heq] at h2
        simp only [Option.some.injEq] at h2
        subst h2
        rfl
      · next x resp heq =>
        rw [heq] at h2
        cases h2

theorem dispatchEvents_rpc (c : LogQueryClient) (pattern options : String)
    (nets : Nat → Network) (l : List ServerConfig) (k i : Nat) (srv : ServerConfig)
    (hi : l[i]? = some srv) (hd : (nets (k + i)).dial srv.Address = none) :
    NetEvent.rpc srv.Address (requestFor srv pattern options) ∈
      dispatchEvents c pattern options nets l k := by
  induction l generalizing k i with
  | nil => simp at hi
  | cons s rest ih =>
    cases i with
    | zero =>
      simp only [List.getElem?_cons_zero, Option.some.injEq] at hi
      subst hi
      simp only [dispatchEvents, List.mem_append]
      left
      simp only [Nat.add_zero] at hd
      unfold queryServer
      simp only [hd]
      split <;> simp [requestFor]
    | succ j =>
      simp only [List.getElem?_cons_succ] at hi
      simp only [dispatchEvents, List.mem_append]
      right
      apply ih (k + 1) j hi
      have : k + 1 + j = k + (j + 1) := by omega
      rw [this]
      exact hd

/-! ## Splitting the output into lines -/

theorem splitAux_ne_nil (sep s : List Char) (skip : Nat) (cur : List Char) :
    splitAux sep s skip cur ≠ [] := by
  induction s generalizing skip cur with
  | nil => simp [splitAux]
  | cons x xs ih =>
    cases skip with
    | zero =>
      unfold splitAux
      split
      · simp
      · exact ih 0 _
    | succ k =>
      unfold splitAux
      exact ih k cur

/-- Joining the pieces of a split at a one-character separator gives the text back. -/
theorem intercalate_splitAux (c : Char) (s cur : List Char) :
    List.intercalate [c] (splitAux [c] s 0 cur) = cur.reverse ++ s := by
  induction s generalizing cur with
  | nil => simp [splitAux, List.intercalate, List.intersperse]
  | cons x xs ih =>
    unfold splitAux
    by_cases h : c = x
    · subst h
      simp only [List.isPrefixOf, beq_self_eq_true, Bool.and_self, if_true, List.length_singleton,
        Nat.sub_self]
      cases hrest : splitAux [c] xs 0 [] with
      | nil => exact absurd hrest (splitAux_ne_nil _ _ _ _)
      | cons b l =>
        have := ih []
        rw [hrest] at this
        simp only [List.reverse_nil, List.nil_append] at this
        simp only [List.intercalate, List.intersperse, List.flatten_cons] at this ⊢
        rw [this]
        simp
    · have hb : (c == x) = false := by simpa using h
      simp only [List.isPrefixOf, hb, Bool.false_and, Bool.false_eq_true, if_false]
      rw [ih (x :: cur)]
      simp

theorem Split_newline_data (t : String) :
    List.intercalate ['\n'] ((Split t "\n").map String.data) = t.data := by
  have h : (Split t "\n").map String.data = splitAux ['\n'] t.data 0 [] := by
    unfold Split
    have : ("\n" : String).data = ['\n'] := rfl
    simp [this, Function.comp_def]
  rw [h, intercalate_splitAux]
  rfl

theorem TrimRight_newline_data (output : String) :
    ∃ k : Nat, output.data = (TrimRight output "\n").data ++ List.replicate k '\n' := by
  refine ⟨((output.data.reverse.takeWhile
    (fun c => ("\n" : String).data.contains c)).reverse).length, ?_⟩
  have h := dropTrailing_append (fun c => ("\n" : String).data.contains c) output.data
  have hrep : (output.data.reverse.takeWhile
      (fun c => ("\n" : String).data.contains c)).reverse =
      List.replicate ((output.data.reverse.takeWhile
        (fun c => ("\n" : String).data.contains c)).reverse).length '\n' := by
    rw [List.eq_replicate_iff]
    refine ⟨rfl, ?_⟩
    intro b hb
    have := List.mem_takeWhile_imp (List.mem_reverse.1 hb)
    have hd : ("\n" : String).data = ['\n'] := rfl
    simpa [hd] using this
  rw [← hrep]
  exact h.symm

/-- The lines `executeGrep` returns: their number is the count it returns, and when there are
any the process ended without error and its output is the lines joined by newlines, followed
by newlines only. -/
theorem executeGrep_lines (s : LogQueryServer) (host : Host) (pattern options : String) :
    (executeGrep s host pattern options).lineCount =
        ((executeGrep s host pattern options).lines.length : Int) ∧
      ((executeGrep s host pattern options).lines ≠ [] →
        ∃ k : Nat, (host.grep (grepArgs s pattern options)).1.data =
          List.intercalate ['\n'] ((executeGrep s host pattern options).lines.map String.data) ++
            List.replicate k '\n') := by
  unfold executeGrep
  simp only
  split
  · next out err heq =>
    split <;> simp
  · next out heq =>
    split
    · simp
    · refine ⟨rfl, fun _ => ?_⟩
      simp only [Split_newline_data]
      rw [heq]
      exact TrimRight_newline_data out

/-! ## Counters of the summary -/

theorem totalLinesOf_cons (r : QueryResult) (rest : List QueryResult) :
    totalLinesOf (r :: rest) =
      (if isSuccessful r then lineCountOf r else 0) + totalLinesOf rest := by
  unfold totalLinesOf
  by_cases h : isSuccessful r = true
  · simp [List.filter_cons, h]
  · simp [List.filter_cons, h]

theorem successfulCount_cons (r : QueryResult) (rest : List QueryResult) :
    successfulCount (r :: rest) = successfulCount rest + (if isSuccessful r then 1 else 0) := by
  unfold successfulCount
  rw [List.countP_cons]

theorem successfulCount_le (results : List QueryResult) :
    successfulCount results ≤ results.length :=
  List.countP_le_length _

/-- With every line count in the `int32` range the total stays within the length times the
range. -/
theorem totalLinesOf_bound (results : List QueryResult)
    (hrange : ∀ r ∈ results, -2 ^ 31 ≤ lineCountOf r ∧ lineCountOf r < 2 ^ 31) :
    -(2 ^ 31 * (results.length : Int)) ≤ totalLinesOf results ∧
      totalLinesOf results ≤ (2 ^ 31 - 1) * (results.length : Int) := by
  induction results with
  | nil => simp [totalLinesOf]
  | cons r rest ih =>
    have ih1 := ih (fun x hx => hrange x (List.mem_cons_of_mem _ hx))
    have hr := hrange r (List.mem_cons_self _ _)
    rw [totalLinesOf_cons]
    have hlen : ((r :: rest).length : Int) = (rest.length : Int) + 1 := by simp
    rw [hlen]
    have hb : -2 ^ 31 ≤ (if isSuccessful r then lineCountOf r else 0) ∧
        (if isSuccessful r then lineCountOf r else 0) < (2 : Int) ^ 31 := by
      split
      · exact hr
      · simp
    omega

/-- The loop over entries that all carry an error or a response runs to the end, and its
counters advance by the total and the number of the successful entries (in 64 bits). -/
theorem printLoop_counters (l : List QueryResult) (st : PrintState)
    (hwf : ∀ r ∈ l, r.Error ≠ none ∨ r.Response ≠ none)
    (h1 : toInt64 st.totalLines = st.totalLines)
    (h2 : toInt64 st.successfulServers = st.successfulServers) :
    (printLoop l st).2 = true ∧
      (printLoop l st).1.totalLines = toInt64 (st.totalLines + totalLinesOf l) ∧
      (printLoop l st).1.successfulServers =
        toInt64 (st.successfulServers + (successfulCount l : Int)) := by
  induction l generalizing st with
  | nil => simp [printLoop, totalLinesOf, successfulCount, h1, h2]
  | cons r rest ih =>
    have hrest := fun x hx => hwf x (List.mem_cons_of_mem r hx)
    have hr := hwf r (List.mem_cons_self _ _)
    rw [totalLinesOf_cons, successfulCount_cons]
    unfold printLoop printStep
    cases he : r.Error with
    | some err =>
      have hs : isSuccessful r = false := by simp [isSuccessful, he]
      simp only [hs, Bool.false_eq_true, if_false, zero_add]
      have := ih { st with reports := st.reports ++ [(r, Printed.transportError r.MachineID err)] }
        hrest h1 h2
      simpa using this
    | none =>
      cases hresp : r.Response with
      | none =>
        rcases hr with hr | hr
        · exact absurd he hr
        · exact absurd hresp hr
      | some resp =>
        by_cases hsucc : resp.Success = true
        · have hs : isSuccessful r = true := by simp [isSuccessful, he, hresp, hsucc]
          have hl : lineCountOf r = resp.LineCount := by simp [lineCountOf, hresp]
          simp only [hs, if_true, hsucc, Bool.not_true, Bool.false_eq_true, if_false, hl]
          have hA : toInt64 (toInt64 (st.totalLines + resp.LineCount)) =
              toInt64 (st.totalLines + resp.LineCount) := by unfold toInt64; omega
          have hB : toInt64 (toInt64 (st.successfulServers + 1)) =
              toInt64 (st.successfulServers + 1) := by unfold toInt64; omega
          obtain ⟨i1, i2, i3⟩ := ih
            { reports := st.reports ++
                [(r, if resp.LineCount = 0 then Printed.noMatches r.MachineID resp.Filename
                     else Printed.found r.MachineID resp.LineCount resp.Filename resp.Lines)]
              totalLines := toInt64 (st.totalLines + resp.LineCount)
              successfulServers := toInt64 (st.successfulServers + 1) } hrest hA hB
          dsimp only at i2 i3
          refine ⟨i1, ?_, ?_⟩
          · rw [i2]
            unfold toInt64
            omega
          · rw [i3]
            unfold toInt64
            push_cast
            omega
        · have hsf : resp.Success = false := by simpa using hsucc
          have hs : isSuccessful r = false := by simp [isSuccessful, he, hresp, hsf]
          simp only [hs, Bool.false_eq_true, if_false, zero_add, hsf, Bool.not_false, if_true]
          have := ih
            { st with reports := st.reports ++ [(r, Printed.queryFailed r.MachineID resp.Error)] }
            hrest h1 h2
          simpa using this

/-- The loop stops before the end when some entry has neither an error nor a response. -/
theorem printLoop_stops (l : List QueryResult) (st : PrintState)
    (h : ∃ r ∈ l, r.Error = none ∧ r.Response = none) : (printLoop l st).2 = false := by
  induction l generalizing st with
  | nil => simp at h
  | cons r rest ih =>
    unfold printLoop
    cases hstep : printStep st r with
    | none => rfl
    | some st1 =>
      simp only
      apply ih
      obtain ⟨x, hx, hx1, hx2⟩ := h
      rcases List.mem_cons.1 hx with hxr | hxr
      · subst hxr
        simp [printStep, hx1, hx2] at hstep
      · exact ⟨x, hxr, hx1, hx2⟩

theorem PrintResults_summary_eq (results : List QueryResult) (pattern : String) :
    (PrintResults results pattern).summary =
      if (printLoop (sortSlice lessByMachineID results) {}).2 then
        some (Printed.summary (printLoop (sortSlice lessByMachineID results) {}).1.totalLines
          (printLoop (sortSlice lessByMachineID results) {}).1.successfulServers results.length
          (toInt64 ((results.length : Int) -
            (printLoop (sortSlice lessByMachineID results) {}).1.successfulServers)))
      else none := by
  unfold PrintResults
  rfl

/-- When some entry has neither an error nor a response, no summary is printed. -/
theorem PrintResults_no_summary (results : List QueryResult) (pattern : String)
    (h : ∃ r ∈ results, r.Error = none ∧ r.Response = none) :
    (PrintResults results pattern).summary = none := by
  rw [PrintResults_summary_eq]
  have : (printLoop (sortSlice lessByMachineID results) {}).2 = false := by
    apply printLoop_stops
    obtain ⟨r, hr, h1, h2⟩ := h
    exact ⟨r, (sortSlice_perm _ _).mem_iff.2 hr, h1, h2⟩
  simp [this]

/-- The summary printed for entries that all carry an error or a response, with the counters
as the 64-bit additions leave them. -/
theorem PrintResults_summary_wrapped (results : List QueryResult) (pattern : String)
    (hwf : ∀ r ∈ results, r.Error ≠ none ∨ r.Response ≠ none) :
    (PrintResults results pattern).summary =
      some (Printed.summary (toInt64 (0 + totalLinesOf results))
        (toInt64 (0 + (successfulCount results : Int))) results.length
        (toInt64 ((results.length : Int) - toInt64 (0 + (successfulCount results : Int))))) := by
  have hperm := sortSlice_perm lessByMachineID results
  have hwf2 : ∀ r ∈ sortSlice lessByMachineID results, r.Error ≠ none ∨ r.Response ≠ none :=
    fun r hr => hwf r (hperm.mem_iff.1 hr)
  have h0 : toInt64 0 = 0 := by decide
  obtain ⟨c1, c2, c3⟩ := printLoop_counters (sortSlice lessByMachineID results) {} hwf2 h0 h0
  have ht : totalLinesOf (sortSlice lessByMachineID results) = totalLinesOf results := by
    unfold totalLinesOf
    exact ((hperm.filter isSuccessful).map lineCountOf).sum_eq
  have hc : successfulCount (sortSlice lessByMachineID results) = successfulCount results := by
    unfold successfulCount
    exact hperm.countP_eq isSuccessful
  rw [PrintResults_summary_eq, c1, c2, c3, ht, hc]
  simp only [if_true]

/-! ## Shared machine IDs -/

/-- The scan of `place` either leaves the slice alone or writes at the first index whose server
has the machine ID of the result. -/
theorem place_cases (result : QueryResult) (servers : List ServerConfig) (k : Nat)
    (results : List QueryResult) :
    place result servers k results = results ∨
      ∃ (f : Nat) (s : ServerConfig), servers[f]? = some s ∧
        s.MachineID = result.MachineID ∧
        (∀ m, m < f → ∀ t, servers[m]? = some t → t.MachineID ≠ result.MachineID) ∧
        place result servers k results = results.set (k + f) result := by
  induction servers generalizing k with
  | nil => exact Or.inl rfl
  | cons server rest ih =>
    unfold place
    split
    · next h =>
      refine Or.inr ⟨0, server, List.getElem?_cons_zero, h, ?_, rfl⟩
      intro m hm
      exact absurd hm (Nat.not_lt_zero m)
    · next h =>
      rcases ih (k + 1) with h0 | ⟨f, s, hf, hs, hfirst, hset⟩
      · exact Or.inl h0
      · refine Or.inr ⟨f + 1, s, by simpa using hf, hs, ?_, ?_⟩
        · intro m hm t ht
          cases m with
          | zero =>
            simp only [List.getElem?_cons_zero, Option.some.injEq] at ht
            subst ht
            exact h
          | succ m1 =>
            simp only [List.getElem?_cons_succ] at ht
            exact hfirst m1 (by omega) t ht
        · rw [hset]
          congr 1
          omega

/-- A result is stored at the first index whose server has its machine ID. -/
theorem place_at_first (result : QueryResult) (servers : List ServerConfig) (k f : Nat)
    (results : List QueryResult) (srv : ServerConfig) (hf : servers[f]? = some srv)
    (hr : srv.MachineID = result.MachineID)
    (hfirst : ∀ m, m < f → ∀ t, servers[m]? = some t → t.MachineID ≠ result.MachineID) :
    place result servers k results = results.set (k + f) result := by
  induction servers generalizing k f with
  | nil => simp at hf
  | cons server rest ih =>
    cases f with
    | zero =>
      simp only [List.getElem?_cons_zero, Option.some.injEq] at hf
      subst hf
      simp [place, hr]
    | succ f1 =>
      simp only [List.getElem?_cons_succ] at hf
      have hne : server.MachineID ≠ result.MachineID :=
        hfirst 0 (by omega) server List.getElem?_cons_zero
      simp only [place, hne, if_false]
      rw [ih (k + 1) f1 hf (fun m hm t ht => hfirst (m + 1) (by omega) t (by simpa using ht))]
      congr 1
      omega

/-- A slot whose server shares its machine ID with an earlier server is never written. -/
theorem place_getElem?_shadowed (result : QueryResult) (servers : List ServerConfig)
    (results : List QueryResult) (i j : Nat) (hij : i < j) (si sj : ServerConfig)
    (hi : servers[i]? = some si) (hj : servers[j]? = some sj)
    (hsame : sj.MachineID = si.MachineID) :
    (place result servers 0 results)[j]? = results[j]? := by
  rcases place_cases result servers 0 results with h0 | ⟨f, s, hf, hs, hfirst, hset⟩
  · rw [h0]
  · rw [hset, Nat.zero_add]
    have hne : f ≠ j := by
      intro e
      subst e
      rw [hj] at hf
      simp only [Option.some.injEq] at hf
      subst hf
      exact hfirst i hij si hi (hsame.symm.trans hs)
    exact List.getElem?_set_ne hne

theorem collect_getElem?_shadowed (servers : List ServerConfig)
    (resultChan results : List QueryResult) (i j : Nat) (hij : i < j) (si sj : ServerConfig)
    (hi : servers[i]? = some si) (hj : servers[j]? = some sj)
    (hsame : sj.MachineID = si.MachineID) :
    (collect servers resultChan results)[j]? = results[j]? := by
  induction resultChan generalizing results with
  | nil => rfl
  | cons r rest ih =>
    show (collect servers rest (place r servers 0 results))[j]? = results[j]?
    rw [ih, place_getElem?_shadowed r servers results i j hij si sj hi hj hsame]

/-- Per-node faults on a roster of pairwise distinct machine IDs: when the connection attempt
or the RPC of node `i` fails, the entry its task produces carries the node's machine ID, an
error whose message names the node's address, and no response; the slice has full length
whatever fails; and that entry is the one at index `i` when the machine IDs are pairwise
distinct and every task delivers once. -/
theorem QueryAllServers_fault_captured (c : LogQueryClient) (pattern options : String)
    (nets : Nat → Network) (order : List Nat) (i : Nat) (hi : i < c.servers.length)
    (cause : String)
    (hfault : Faults c (nets i) (c.servers.get ⟨i, hi⟩) pattern options cause) :
    (QueryAllServers c pattern options nets order).length = c.servers.length ∧
      ∃ msg : String, (c.servers.get ⟨i, hi⟩).Address.data <:+: msg.data ∧
        taskResult c (nets i) (c.servers.get ⟨i, hi⟩) pattern options =
          { MachineID := (c.servers.get ⟨i, hi⟩).MachineID, Response := none,
            Error := some msg } ∧
        ((c.servers.map (fun s => s.MachineID)).Nodup →
          order.Perm (List.range c.servers.length) →
          (QueryAllServers c pattern options nets order)[i]? =
            some { MachineID := (c.servers.get ⟨i, hi⟩).MachineID, Response := none,
                   Error := some msg }) := by
  obtain ⟨msg, hmsg, hres⟩ := queryServer_fault c (nets i) _ pattern options cause hfault
  have htask : taskResult c (nets i) (c.servers.get ⟨i, hi⟩) pattern options =
      { MachineID := (c.servers.get ⟨i, hi⟩).MachineID, Response := none,
        Error := some msg } := by
    unfold taskResult
    rw [hres]
  refine ⟨by simp [QueryAllServers, collect_length], msg, hmsg, htask, ?_⟩
  intro hid hord
  rw [QueryAllServers_eq_taskResults c pattern options nets order hid hord,
    taskResults_getElem?, List.getElem?_eq_getElem hi, ← htask]
  rfl

/-! ## Claims -/

/-- C1. Completeness: for every roster, every combination of per-node outcomes (every node
failing included) and every delivery order, `QueryAllServers` returns exactly as many
entries as the roster has servers. -/
theorem QueryAllServers_length (c : LogQueryClient) (pattern options : String)
    (nets : Nat → Network) (order : List Nat) :
    (QueryAllServers c pattern options nets order).length = c.servers.length := by
  simp [QueryAllServers, collect_length]

/-- C2. For a roster with pairwise distinct machine IDs and every delivery order in which each
task delivers once, entry `i` of `QueryAllServers` is the outcome of querying `servers[i]`
tagged with that server's machine ID; entry `i` is the same under any other network that
task `i` sees alike; and the slice is the same for every delivery order. -/
theorem QueryAllServers_by_index (c : LogQueryClient) (pattern options : String)
    (nets : Nat → Network) (order : List Nat)
    (hid : (c.servers.map (fun s => s.MachineID)).Nodup)
    (hord : order.Perm (List.range c.servers.length)) :
    (∀ (i : Nat) (h : i < c.servers.length),
        (QueryAllServers c pattern options nets order)[i]? =
          some { (queryServer c (nets i) (c.servers.get ⟨i, h⟩) pattern options).1 with
                 MachineID := (c.servers.get ⟨i, h⟩).MachineID }) ∧
    (∀ (nets2 : Nat → Network) (i : Nat), nets2 i = nets i →
        (QueryAllServers c pattern options nets2 order)[i]? =
          (QueryAllServers c pattern options nets order)[i]?) ∧
    (∀ order2 : List Nat, order2.Perm (List.range c.servers.length) →
        QueryAllServers c pattern options nets order2 =
          QueryAllServers c pattern options nets order) := by
  refine ⟨?_, ?_, ?_⟩
  · intro i h
    rw [QueryAllServers_eq_taskResults c pattern options nets order hid hord,
      taskResults_getElem?, List.getElem?_eq_getElem h]
    rfl
  · intro nets2 i hi
    rw [QueryAllServers_eq_taskResults c pattern options nets order hid hord,
      QueryAllServers_eq_taskResults c pattern options nets2 order hid hord,
      taskResults_getElem?, taskResults_getElem?, hi]
  · intro order2 h2
    rw [QueryAllServers_eq_taskResults c pattern options nets order hid hord,
      QueryAllServers_eq_taskResults c pattern options nets order2 hid h2]

/-- C3. Zero-match correctness: for a non-blank pattern and an existing log file, when the
engine reports "no matches" (exit code 1, or exit code 0 with empty output), `QueryLogs`
returns a response with `Success = true`, `LineCount = 0`, no lines and an empty error
text, and no transport error. -/
theorem QueryLogs_no_matches (s : LogQueryServer) (host : Host) (req : QueryRequest)
    (hfile : host.statNotExist s.logFile = false) (hpat : TrimSpace req.Pattern ≠ "")
    (hnone : NoMatches host (grepArgs s (TrimSpace req.Pattern) req.Options)) :
    (QueryLogs s host req).response = some
        { MachineId := s.machineID, Success := true, Error := "", Filename := s.logFile,
          LineCount := 0, Lines := [] } ∧
      (QueryLogs s host req).err = none := by
  have hexec : executeGrep s host (TrimSpace req.Pattern) req.Options =
      { lines := [], lineCount := 0, err := none } := by
    unfold executeGrep
    rcases hnone with ⟨e, he, hcode⟩ | h0
    · simp only
      split
      · next out err heq =>
        rw [heq] at he
        simp only [Option.some.injEq] at he
        subst he
        simp [hcode]
      · next out heq =>
        rw [heq] at he
        cases he
    · simp only [h0]
      simp
  unfold QueryLogs
  simp only [hfile, Bool.false_eq_true, if_false, sanitizePattern_eq, hpat, hexec]
  exact ⟨by rfl, by trivial⟩

/-- C4. Injection safety of the engine invocation: for a non-blank pattern `p` and any options
`o`, the only argument vector `QueryLogs` hands to the engine (none when the log file is
missing) is `Fields o` followed by `-e`, `TrimSpace p`, `--`, the log file; the pattern
argument is `p` with only surrounding white space removed, and it sits right after `-e`,
with `--` right before the file path, after all option tokens. -/
theorem QueryLogs_engine_args (s : LogQueryServer) (host : Host) (req : QueryRequest)
    (hpat : TrimSpace req.Pattern ≠ "") :
    (QueryLogs s host req).engineCalls =
        (if host.statNotExist s.logFile then []
         else [Fields req.Options ++ ["-e", TrimSpace req.Pattern, "--", s.logFile]]) ∧
      IsTrimOf req.Pattern.data (TrimSpace req.Pattern).data ∧
      (∀ args ∈ (QueryLogs s host req).engineCalls,
        args.length = (Fields req.Options).length + 4 ∧
        args.take (Fields req.Options).length = Fields req.Options ∧
        args.drop (Fields req.Options).length =
          ["-e", TrimSpace req.Pattern, "--", s.logFile]) := by
  have hcalls : (QueryLogs s host req).engineCalls =
      (if host.statNotExist s.logFile then []
       else [Fields req.Options ++ ["-e", TrimSpace req.Pattern, "--", s.logFile]]) := by
    unfold QueryLogs
    split
    · rfl
    · simp only [sanitizePattern_eq, hpat, if_false, grepArgs_eq]
      split <;> rfl
  refine ⟨hcalls, trimSpaceChars_spec _, ?_⟩
  intro args hargs
  rw [hcalls] at hargs
  split at hargs
  · simp at hargs
  · simp only [List.mem_singleton] at hargs
    subst hargs
    simp

/-- C5. `QueryLogs` never raises: for every request and every state of the log file and of the
engine it returns a response (not nil) with a nil error, and the error text of the response
is non-empty exactly when `Success` is false. -/
theorem QueryLogs_never_raises (s : LogQueryServer) (host : Host) (req : QueryRequest) :
    ∃ resp : QueryResponse, (QueryLogs s host req).response = some resp ∧
      (QueryLogs s host req).err = none ∧ (resp.Error ≠ "" ↔ resp.Success = false) := by
  obtain ⟨herr, h | h | ⟨e, h⟩ | ⟨n, lines, h⟩⟩ := QueryLogs_response s host req
  · refine ⟨_, h, herr, ?_⟩
    simp only [iff_true]
    rw [String.append_assoc]
    exact append_ne_empty _ _ (by decide)
  · exact ⟨_, h, herr, by simp⟩
  · refine ⟨_, h, herr, ?_⟩
    simp only [iff_true]
    exact append_ne_empty _ _ (by decide)
  · refine ⟨_, h, herr, ?_⟩
    simp

/-- C6, failing input. On the roster of `hostA:8080,hostB:8080` with every RPC failing, the
queries of both nodes fault, yet `QueryAllServers` returns one error entry and the zero
value: the scan by machine ID stores both results at index 0, so for the delivery order 0, 1
the only error names `hostB:8080` and the fault of `hostA:8080` is lost, and for the order
1, 0 it is the other way round; index 1 carries no machine ID and no error. -/
theorem QueryAllServers_fault_lost :
    exampleSharedClient.servers =
        [{ MachineID := "8080", Address := "hostA:8080" },
         { MachineID := "8080", Address := "hostB:8080" }] ∧
      Faults exampleSharedClient (exampleNets 0)
        { MachineID := "8080", Address := "hostA:8080" } "ERROR" ""
        "rpc error: code = Unavailable" ∧
      Faults exampleSharedClient (exampleNets 1)
        { MachineID := "8080", Address := "hostB:8080" } "ERROR" ""
        "rpc error: code = Unavailable" ∧
      QueryAllServers exampleSharedClient "ERROR" "" exampleNets [0, 1] =
        [{ MachineID := "8080", Response := none,
           Error := some "query failed on hostB:8080: rpc error: code = Unavailable" },
         { MachineID := "", Response := none, Error := none }] ∧
      QueryAllServers exampleSharedClient "ERROR" "" exampleNets [1, 0] =
        [{ MachineID := "8080", Response := none,
           Error := some "query failed on hostA:8080: rpc error: code = Unavailable" },
         { MachineID := "", Response := none, Error := none }] :=
  ⟨by decide, Or.inr ⟨rfl, rfl⟩, Or.inr ⟨rfl, rfl⟩, by decide, by decide⟩

/-- C7. Output ordering: for every list of results, the slice `PrintResults` reports from is
a permutation of the input, non-decreasing in `MachineID` under the lexicographic order of
strings; the entries it reports are an initial part of that slice, in its order, and all of
it when every entry carries an error or a response. -/
theorem PrintResults_order (results : List QueryResult) (pattern : String) :
    (PrintResults results pattern).sorted.Perm results ∧
      (PrintResults results pattern).sorted.Pairwise (fun a b => a.MachineID ≤ b.MachineID) ∧
      (PrintResults results pattern).reports.map Prod.fst <+:
        (PrintResults results pattern).sorted ∧
      ((∀ r ∈ results, r.Error ≠ none ∨ r.Response ≠ none) →
        (PrintResults results pattern).reports.map Prod.fst =
          (PrintResults results pattern).sorted) := by
  obtain ⟨reported, h1, h2, h3⟩ := printLoop_reports (sortSlice lessByMachineID results) {}
  have hrep : (PrintResults results pattern).reports.map Prod.fst = reported := by
    simpa [PrintResults] using h1
  refine ⟨sortSlice_perm _ _, sortSlice_sorted _, ?_, ?_⟩
  · rw [hrep]
    exact h2
  · intro hall
    rw [hrep]
    exact (h3 (fun r hr => hall r ((sortSlice_perm _ _).mem_iff.1 hr))).1

/-- C8 (as amended). Coordinator input validation: for the empty pattern the coordinator stops
in `log.Fatal` before dispatch, with no network event, no result and nothing printed; every
non-empty pattern, one of white space only included, passes the validation and is sent to
each node of the roster whose connection is established. -/
theorem clientMain_validation (flags : Flags) (nets : Nat → Network) (order : List Nat) :
    (flags.pattern = "" →
      (clientMain flags nets order).fatal = some "Pattern is required. Use -pattern flag." ∧
      (clientMain flags nets order).events = [] ∧
      (clientMain flags nets order).results = [] ∧
      (clientMain flags nets order).printed = none) ∧
    (flags.pattern ≠ "" →
      (clientMain flags nets order).fatal = none ∧
      ∀ (i : Nat) (srv : ServerConfig), (parseServers flags.servers)[i]? = some srv →
        (nets i).dial srv.Address = none →
        NetEvent.rpc srv.Address (requestFor srv flags.pattern flags.options) ∈
          (clientMain flags nets order).events) := by
  constructor
  · intro h
    simp [clientMain, h]
  · intro h
    refine ⟨by simp [clientMain, h], ?_⟩
    intro i srv hi hd
    simp only [clientMain, h, if_false, NewLogQueryClient]
    apply dispatchEvents_rpc _ _ _ _ _ 0 i srv hi
    rw [Nat.zero_add]
    exact hd

/-- C8, counterexample. The pattern of one space is blank, yet the coordinator does not stop:
it sends the pattern to both nodes of the roster. -/
theorem clientMain_blank_pattern_dispatched :
    TrimSpace " " = "" ∧
      (clientMain { pattern := " ", servers := "localhost:8080,localhost:8081" }
        exampleNets [0, 1]).fatal = none ∧
      (clientMain { pattern := " ", servers := "localhost:8080,localhost:8081" }
        exampleNets [0, 1]).events =
        [NetEvent.dial "localhost:8080",
         NetEvent.rpc "localhost:8080" { Pattern := " ", Options := "", MachineId := "8080" },
         NetEvent.dial "localhost:8081",
         NetEvent.rpc "localhost:8081" { Pattern := " ", Options := "", MachineId := "8081" }] := by
  decide

/-- C9. Node-side pattern validation: when the log file exists and the pattern is empty after
trimming, `QueryLogs` returns `Success = false` with the error `Invalid or empty pattern`,
line count 0 and no lines, and starts no engine process; and for every pattern
`sanitizePattern` is `TrimSpace`: the pattern with only its surrounding white space removed. -/
theorem QueryLogs_blank_pattern (s : LogQueryServer) (host : Host) (req : QueryRequest)
    (hfile : host.statNotExist s.logFile = false) (hpat : TrimSpace req.Pattern = "") :
    (QueryLogs s host req).response = some
        { MachineId := s.machineID, Success := false, Error := "Invalid or empty pattern",
          Filename := s.logFile, LineCount := 0, Lines := [] } ∧
      (QueryLogs s host req).err = none ∧
      (QueryLogs s host req).engineCalls = [] ∧
      (∀ p : String, sanitizePattern p = TrimSpace p ∧
        IsTrimOf p.data (sanitizePattern p).data) := by
  refine ⟨?_, ?_, ?_, ?_⟩
  · unfold QueryLogs
    simp only [hfile, Bool.false_eq_true, if_false, sanitizePattern_eq, hpat, if_true]
  · unfold QueryLogs
    simp only [hfile, Bool.false_eq_true, if_false, sanitizePattern_eq, hpat, if_true]
  · unfold QueryLogs
    simp only [hfile, Bool.false_eq_true, if_false, sanitizePattern_eq, hpat, if_true]
  · intro p
    rw [sanitizePattern_eq]
    exact ⟨rfl, trimSpaceChars_spec _⟩

/-- C10, failing input. The engine prints the line `a` and an empty line; `QueryLogs` returns
the single line `a` with line count 1, where the engine printed two lines. -/
theorem QueryLogs_drops_trailing_empty_line :
    (QueryLogs (NewLogQueryServer "1") exampleHostEmptyLine { Pattern := "^" }).response =
        some { MachineId := "1", Success := true, Error := "", Filename := "machine.1.log",
               LineCount := 1, Lines := ["a"] } ∧
      printedLines "a\n\n" = ["a", ""] := by
  decide

/-- C11. Missing log file: the server built for `machineID` has the fixed log file
`machine.<machineID>.log`; when that file does not exist, `QueryLogs` returns, for every
request, `Success = false` with the error `Log file '...' not found` and starts no engine
process; every response reports that file name; and the outcome does not depend on the
machine ID in the request, nor on any file other than that one. -/
theorem QueryLogs_missing_file (machineID : String) (host : Host) (req : QueryRequest) :
    (NewLogQueryServer machineID).logFile = "machine." ++ machineID ++ ".log" ∧
      (host.statNotExist ("machine." ++ machineID ++ ".log") = true →
        QueryLogs (NewLogQueryServer machineID) host req =
          { response := some
              { MachineId := machineID, Success := false,
                Error := "Log file '" ++ ("machine." ++ machineID ++ ".log") ++ "' not found",
                Filename := "machine." ++ machineID ++ ".log", LineCount := 0, Lines := [] }
            err := none, engineCalls := [] }) ∧
      (∃ resp : QueryResponse,
        (QueryLogs (NewLogQueryServer machineID) host req).response = some resp ∧
          resp.Filename = "machine." ++ machineID ++ ".log") ∧
      (∀ nodeID : String,
        QueryLogs (NewLogQueryServer machineID) host { req with MachineId := nodeID } =
          QueryLogs (NewLogQueryServer machineID) host req) ∧
      (∀ host2 : Host, host2.grep = host.grep →
        host2.statNotExist ("machine." ++ machineID ++ ".log") =
          host.statNotExist ("machine." ++ machineID ++ ".log") →
        QueryLogs (NewLogQueryServer machineID) host2 req =
          QueryLogs (NewLogQueryServer machineID) host req) := by
  refine ⟨rfl, ?_, ?_, ?_, ?_⟩
  · intro h
    simp [QueryLogs, NewLogQueryServer, h]
  · obtain ⟨_, h | h | ⟨e, h⟩ | ⟨n, lines, h⟩⟩ :=
      QueryLogs_response (NewLogQueryServer machineID) host req
    · exact ⟨_, h, rfl⟩
    · exact ⟨_, h, rfl⟩
    · exact ⟨_, h, rfl⟩
    · exact ⟨_, h, rfl⟩
  · intro nodeID
    rfl
  · intro host2 hg hs
    simp only [QueryLogs, executeGrep, NewLogQueryServer, hg, hs]

/-- C12. Summary counts: for a list of results whose line counts are `int32` values (at most
`2^32` entries, so that the 64-bit total cannot wrap), when every entry carries an error or
a response `PrintResults` prints the summary with: total lines the sum of the line counts of
the successful entries (no transport error, `Success` true), successful count their number,
failed count the number of the remaining entries; when some entry carries neither, the loop
stops at it and no summary is printed. -/
theorem PrintResults_summary (results : List QueryResult) (pattern : String)
    (hrange : ∀ r ∈ results, -2 ^ 31 ≤ lineCountOf r ∧ lineCountOf r < 2 ^ 31)
    (hlen : results.length ≤ 2 ^ 32) :
    ((∀ r ∈ results, r.Error ≠ none ∨ r.Response ≠ none) →
        (PrintResults results pattern).summary =
          some (Printed.summary (totalLinesOf results) (successfulCount results : Int)
            results.length ((results.length : Int) - (successfulCount results : Int)))) ∧
      ((∃ r ∈ results, r.Error = none ∧ r.Response = none) →
        (PrintResults results pattern).summary = none) ∧
      successfulCount results ≤ results.length ∧
      (successfulCount results : Int) +
        ((results.length : Int) - (successfulCount results : Int)) = results.length := by
  refine ⟨?_, PrintResults_no_summary results pattern, successfulCount_le results, by omega⟩
  intro hwf
  have hb := totalLinesOf_bound results hrange
  have hle := successfulCount_le results
  have hlen2 : (results.length : Int) ≤ 2 ^ 32 := by exact_mod_cast hlen
  have hle2 : (successfulCount results : Int) ≤ (results.length : Int) := by exact_mod_cast hle
  have e1 : toInt64 (0 + totalLinesOf results) = totalLinesOf results := by
    unfold toInt64
    omega
  have e2 : toInt64 (0 + (successfulCount results : Int)) = (successfulCount results : Int) := by
    unfold toInt64
    omega
  have e3 : toInt64 ((results.length : Int) - (successfulCount results : Int)) =
      (results.length : Int) - (successfulCount results : Int) := by
    unfold toInt64
    omega
  rw [PrintResults_summary_wrapped results pattern hwf, e1, e2, e3]

/-- C13. For every response `QueryLogs` returns, `LineCount` is the `int32` conversion of the
number of entries of `Lines` (the number itself below `2^31`); and on success, when there are
lines, the engine's output is those lines in that order, joined by newlines, followed by
newlines only. -/
theorem QueryLogs_line_count (s : LogQueryServer) (host : Host) (req : QueryRequest) :
    ∃ resp : QueryResponse, (QueryLogs s host req).response = some resp ∧
      resp.LineCount = toInt32 (resp.Lines.length : Int) ∧
      (resp.Lines.length < 2 ^ 31 → resp.LineCount = (resp.Lines.length : Int)) ∧
      (resp.Success = true → resp.Lines ≠ [] →
        ∃ k : Nat,
          (host.grep (grepArgs s (TrimSpace req.Pattern) req.Options)).1.data =
            List.intercalate ['\n'] (resp.Lines.map String.data) ++ List.replicate k '\n') := by
  have key : ∃ resp : QueryResponse, (QueryLogs s host req).response = some resp ∧
      resp.LineCount = toInt32 (resp.Lines.length : Int) ∧
      (resp.Success = true → resp.Lines ≠ [] →
        ∃ k : Nat,
          (host.grep (grepArgs s (TrimSpace req.Pattern) req.Options)).1.data =
            List.intercalate ['\n'] (resp.Lines.map String.data) ++ List.replicate k '\n') := by
    unfold QueryLogs
    split
    · exact ⟨_, rfl, by simp [toInt32], by simp⟩
    · simp only [sanitizePattern_eq]
      split
      · exact ⟨_, rfl, by simp [toInt32], by simp⟩
      · have hl := executeGrep_lines s host (TrimSpace req.Pattern) req.Options
        split
        · exact ⟨_, rfl, by simp [toInt32], by simp⟩
        · refine ⟨_, rfl, ?_, ?_⟩
          · simp only [hl.1]
          · intro _ hne
            exact hl.2 hne
  obtain ⟨resp, h1, h2, h3⟩ := key
  refine ⟨resp, h1, h2, ?_, h3⟩
  intro hlt
  rw [h2]
  unfold toInt32
  have : (resp.Lines.length : Int) < 2 ^ 31 := by exact_mod_cast hlt
  omega

/-- C14. When a roster entry `j` shares its machine ID with the first entry `i < j` of that ID
(as the roster of `hostA:8080,hostB:8080` does), the results of both tasks are stored at
index `i`, and for every delivery order slot `j` of `QueryAllServers` stays the zero
`QueryResult` (empty machine ID, no response, no error); at such a slot the loop of
`PrintResults` has neither an error nor a response to read: it stops there, and no summary
is printed. -/
theorem QueryAllServers_shared_id (c : LogQueryClient) (pattern options : String)
    (nets : Nat → Network) (order : List Nat) (i j : Nat) (hij : i < j)
    (hj : j < c.servers.length)
    (hsame : (c.servers.get ⟨j, hj⟩).MachineID =
      (c.servers.get ⟨i, Nat.lt_trans hij hj⟩).MachineID)
    (hfirst : ∀ m, m < i → ∀ t, c.servers[m]? = some t →
      t.MachineID ≠ (c.servers.get ⟨i, Nat.lt_trans hij hj⟩).MachineID) :
    (∀ results : List QueryResult,
        place (taskResult c (nets i) (c.servers.get ⟨i, Nat.lt_trans hij hj⟩) pattern options)
            c.servers 0 results =
          results.set i
            (taskResult c (nets i) (c.servers.get ⟨i, Nat.lt_trans hij hj⟩) pattern options)) ∧
      (∀ results : List QueryResult,
        place (taskResult c (nets j) (c.servers.get ⟨j, hj⟩) pattern options)
            c.servers 0 results =
          results.set i (taskResult c (nets j) (c.servers.get ⟨j, hj⟩) pattern options)) ∧
      (QueryAllServers c pattern options nets order)[j]? =
        some { MachineID := "", Response := none, Error := none } ∧
      (∀ st : PrintState,
        printStep st { MachineID := "", Response := none, Error := none } = none) ∧
      (PrintResults (QueryAllServers c pattern options nets order) pattern).summary = none := by
  have hi : i < c.servers.length := Nat.lt_trans hij hj
  have hgi : c.servers[i]? = some (c.servers.get ⟨i, hi⟩) := by
    rw [List.getElem?_eq_getElem hi]
    rfl
  have hgj : c.servers[j]? = some (c.servers.get ⟨j, hj⟩) := by
    rw [List.getElem?_eq_getElem hj]
    rfl
  have hslot : (QueryAllServers c pattern options nets order)[j]? =
      some { MachineID := "", Response := none, Error := none } := by
    unfold QueryAllServers
    simp only
    rw [collect_getElem?_shadowed c.servers _ _ i j hij _ _ hgi hgj hsame]
    simp [List.getElem?_replicate, hj]
  refine ⟨?_, ?_, hslot, fun st => rfl, ?_⟩
  · intro results
    have := place_at_first
      (taskResult c (nets i) (c.servers.get ⟨i, hi⟩) pattern options) c.servers 0 i results
      (c.servers.get ⟨i, hi⟩) hgi rfl hfirst
    simpa using this
  · intro results
    have := place_at_first
      (taskResult c (nets j) (c.servers.get ⟨j, hj⟩) pattern options) c.servers 0 i results
      (c.servers.get ⟨i, hi⟩) hgi hsame.symm
      (fun m hm t ht => by
        have := hfirst m hm t ht
        intro e
        apply this
        rw [e]
        exact hsame)
    simpa using this
  · apply PrintResults_no_summary
    exact ⟨_, List.mem_iff_getElem?.2 ⟨j, hslot⟩, rfl, rfl⟩

/-! ## Instances at concrete inputs -/

/-- Two nodes with distinct machine IDs: both delivery orders give the same slice. -/
theorem QueryAllServers_by_index_witness :
    (exampleClient.servers.map (fun s => s.MachineID)).Nodup ∧
      [1, 0].Perm (List.range exampleClient.servers.length) ∧
      QueryAllServers exampleClient "ERROR" "" exampleNets [0, 1] =
        QueryAllServers exampleClient "ERROR" "" exampleNets [1, 0] :=
  ⟨by decide, by decide,
    (QueryAllServers_by_index exampleClient "ERROR" "" exampleNets [1, 0]
      (by decide) (by decide)).2.2 [0, 1] (by decide)⟩

/-- A grep that exits with code 1 on pattern `ERROR`: a successful response with no lines. -/
theorem QueryLogs_no_matches_witness :
    exampleHostNoMatch.statNotExist (NewLogQueryServer "1").logFile = false ∧
      TrimSpace "ERROR" ≠ "" ∧
      (QueryLogs (NewLogQueryServer "1") exampleHostNoMatch { Pattern := "ERROR" }).response =
        some { MachineId := "1", Success := true, Error := "", Filename := "machine.1.log",
               LineCount := 0, Lines := [] } :=
  ⟨rfl, by decide,
    (QueryLogs_no_matches (NewLogQueryServer "1") exampleHostNoMatch { Pattern := "ERROR" }
      rfl (by decide) (Or.inl ⟨_, rfl, rfl⟩)).1⟩

/-- A pattern with shell metacharacters and a leading dash stays one argument after `-e`. -/
theorem QueryLogs_engine_args_witness :
    TrimSpace " -rf; rm " ≠ "" ∧
      (QueryLogs (NewLogQueryServer "1") exampleHostNoMatch
        { Pattern := " -rf; rm ", Options := " -i  -n" }).engineCalls =
        [["-i", "-n", "-e", "-rf; rm", "--", "machine.1.log"]] :=
  ⟨by decide,
    (QueryLogs_engine_args (NewLogQueryServer "1") exampleHostNoMatch
      { Pattern := " -rf; rm ", Options := " -i  -n" } (by decide)).1⟩

/-- A pattern of white space only: rejected without starting grep. -/
theorem QueryLogs_blank_pattern_witness :
    exampleHostNoMatch.statNotExist (NewLogQueryServer "1").logFile = false ∧
      TrimSpace " \t " = "" ∧
      (QueryLogs (NewLogQueryServer "1") exampleHostNoMatch { Pattern := " \t " }).engineCalls =
        [] :=
  ⟨rfl, by decide,
    (QueryLogs_blank_pattern (NewLogQueryServer "1") exampleHostNoMatch { Pattern := " \t " }
      rfl (by decide)).2.2.1⟩

/-- Two nodes with distinct machine IDs and every RPC failing: one entry per node. -/
theorem QueryAllServers_fault_captured_witness :
    Faults exampleClient (exampleNets 1) (exampleClient.servers.get ⟨1, by decide⟩)
        "ERROR" "" "rpc error: code = Unavailable" ∧
      (QueryAllServers exampleClient "ERROR" "" exampleNets [1, 0]).length =
        exampleClient.servers.length :=
  ⟨Or.inr ⟨rfl, rfl⟩,
    (QueryAllServers_fault_captured exampleClient "ERROR" "" exampleNets [1, 0] 1 (by decide)
      "rpc error: code = Unavailable" (Or.inr ⟨rfl, rfl⟩)).1⟩

/-- Two failed entries arriving out of order: both are reported, in sorted order. -/
theorem PrintResults_order_witness :
    (PrintResults
        [{ MachineID := "8081", Error := some "down" },
         { MachineID := "8080", Error := some "down" }] "ERROR").reports.map Prod.fst =
      (PrintResults
        [{ MachineID := "8081", Error := some "down" },
         { MachineID := "8080", Error := some "down" }] "ERROR").sorted :=
  (PrintResults_order
    [{ MachineID := "8081", Error := some "down" },
     { MachineID := "8080", Error := some "down" }] "ERROR").2.2.2 (by decide)

/-- The empty pattern: no network event. -/
theorem clientMain_validation_witness :
    ({ pattern := "" } : Flags).pattern = "" ∧
      (clientMain { pattern := "" } exampleNets [0, 1, 2]).events = [] :=
  ⟨rfl, ((clientMain_validation { pattern := "" } exampleNets [0, 1, 2]).1 rfl).2.1⟩

/-- A host without log files: the request is answered with the not-found error. -/
theorem QueryLogs_missing_file_witness :
    exampleHostNoFile.statNotExist ("machine." ++ "7" ++ ".log") = true ∧
      QueryLogs (NewLogQueryServer "7") exampleHostNoFile { Pattern := " ", MachineId := "9" } =
        { response := some
            { MachineId := "7", Success := false,
              Error := "Log file 'machine.7.log' not found",
              Filename := "machine.7.log", LineCount := 0, Lines := [] }
          err := none, engineCalls := [] } :=
  ⟨rfl,
    (QueryLogs_missing_file "7" exampleHostNoFile { Pattern := " ", MachineId := "9" }).2.1 rfl⟩

/-- An output of three lines, the middle one empty: three lines in order, line count 3. -/
theorem QueryLogs_line_count_witness :
    ∃ resp : QueryResponse,
      (QueryLogs (NewLogQueryServer "1") exampleHostThreeLines { Pattern := "^" }).response =
        some resp ∧
      resp.LineCount = toInt32 (resp.Lines.length : Int) :=
  (QueryLogs_line_count (NewLogQueryServer "1") exampleHostThreeLines { Pattern := "^" }).imp
    (fun _ h => ⟨h.1, h.2.1⟩)

/-- Line counts 5, 4 and 3: total 12, 3 successful, 0 failed. -/
theorem PrintResults_summary_witness :
    (∀ r ∈ exampleResults, -2 ^ 31 ≤ lineCountOf r ∧ lineCountOf r < 2 ^ 31) ∧
      exampleResults.length ≤ 2 ^ 32 ∧
      (PrintResults exampleResults "ERROR").summary = some (Printed.summary 12 3 3 0) :=
  ⟨by decide, by decide,
    (PrintResults_summary exampleResults "ERROR" (by decide) (by decide)).1 (by decide)⟩

/-- The roster of `hostA:8080,hostB:8080`: the second slot stays the zero value and no summary
is printed. -/
theorem QueryAllServers_shared_id_witness :
    exampleSharedClient.servers.map (fun s => s.MachineID) = ["8080", "8080"] ∧
      (QueryAllServers exampleSharedClient "ERROR" "" exampleNets [1, 0])[1]? =
        some { MachineID := "", Response := none, Error := none } ∧
      (PrintResults (QueryAllServers exampleSharedClient "ERROR" "" exampleNets [1, 0])
        "ERROR").summary = none :=
  ⟨by decide,
    (QueryAllServers_shared_id exampleSharedClient "ERROR" "" exampleNets [1, 0] 0 1
      (by decide) (by decide) (by decide)
      (fun m hm => absurd hm (Nat.not_lt_zero m))).2.2.1,
    (QueryAllServers_shared_id exampleSharedClient "ERROR" "" exampleNets [1, 0] 0 1
      (by decide) (by decide) (by decide)
      (fun m hm => absurd hm (Nat.not_lt_zero m))).2.2.2.2⟩

end LogQuery
